import Mathlib

/-!
Verification of the multi-agent job-search pipeline core: the structured-output
extraction routines, the domain-model validation, the fit-scoring result
construction, the ranking stage with its deterministic fallback, the
opportunity-discovery stage, and the pipeline orchestrator.  Text-generation
calls (the LLM) are modelled as untrusted oracles supplying either structured
output or raw text; everything else is translated from the repository source.
-/

namespace JobSearch

/-- The opening-brace character, written by code point. -/
def lbrace : Char := '\x7b'

/-- The closing-brace character, written by code point. -/
def rbrace : Char := '\x7d'

/-- The backtick character (code point 96), used in fenced code-block markers. -/
def btick : Char := Char.ofNat 96

/-- ASCII whitespace as matched by a Python regex whitespace class. -/
def isPySpace (c : Char) : Bool :=
  c = ' ' || c = '\t' || c = '\n' || c = '\x0b' || c = '\x0c' || c = '\r'

/-- Numeric rendering used when the source interpolates a score into a message
string; stands for Python float formatting (no claim depends on its exact
output). -/
def numRepr (q : Rat) : String := toString q

/-! ## Structured-output extraction

`src/agents/skill_matcher.py` lines 293-344 (and the textually identical block
at lines 590-638 in the batch variant): strip markdown code fences, locate the
first opening brace, scan forward tracking brace depth while respecting
quoted-string state and escape sequences, then repair trailing commas. -/

/-- One pass of `re.sub(pat ++ r"\s*", "", s)` for a literal pattern `pat`:
remove every non-overlapping occurrence of the literal followed by a maximal
whitespace run, scanning left to right.  The fuel argument only bounds the
recursion; every replacement consumes at least one character (the pattern is
non-empty at each use), so fuel equal to the text length never runs out. -/
def subPatternWsAux (pat : List Char) : Nat → List Char → List Char
  | _, [] => []
  | 0, l => l
  | fuel + 1, c :: cs =>
    if pat ≠ [] ∧ pat.isPrefixOf (c :: cs) then
      subPatternWsAux pat fuel (((c :: cs).drop pat.length).dropWhile isPySpace)
    else
      c :: subPatternWsAux pat fuel cs

/-- The substitution pass at its natural fuel. -/
def subPatternWs (pat : List Char) (l : List Char) : List Char :=
  subPatternWsAux pat l.length l

/-- The fenced-marker pattern for a fenced code block opened with a language tag. -/
def fenceJsonPat : List Char := [btick, btick, btick, 'j', 's', 'o', 'n']

/-- The bare fenced-marker pattern. -/
def fencePat : List Char := [btick, btick, btick]

/-- Removal of markdown code-block markers, as the two `re.sub` calls do:
first the tagged opener together with trailing whitespace, then any remaining
bare fence together with trailing whitespace. -/
def stripCodeFences (s : List Char) : List Char :=
  subPatternWs fencePat (subPatternWs fenceJsonPat s)

/-- The suffix of the text starting at its first opening brace, when one exists
(mirrors `result_str.find("{")`). -/
def dropToFirstBrace : List Char → Option (List Char)
  | [] => none
  | c :: cs => if c = lbrace then some (c :: cs) else dropToFirstBrace cs

/-- The depth scan from `skill_matcher`: walk the characters with a brace
depth, a quoted-string flag and an escape flag, and return the consumed prefix
up to and including the brace that brings the depth back to zero.  The scan is
started on the suffix beginning at the first opening brace with depth 0, so the
first character processed is that brace. -/
def scanToClose : List Char → Int → Bool → Bool → Option (List Char)
  | [], _, _, _ => none
  | c :: cs, depth, inStr, esc =>
    if esc then (scanToClose cs depth inStr false).map (c :: ·)
    else if c = '\\' then (scanToClose cs depth inStr true).map (c :: ·)
    else if c = '\"' then (scanToClose cs depth (!inStr) false).map (c :: ·)
    else if inStr then (scanToClose cs depth inStr false).map (c :: ·)
    else if c = lbrace then (scanToClose cs (depth + 1) inStr false).map (c :: ·)
    else if c = rbrace then
      if depth = 1 then some [c]
      else (scanToClose cs (depth - 1) inStr false).map (c :: ·)
    else (scanToClose cs depth inStr false).map (c :: ·)

/-- One pass of `re.sub("," ++ r"\s*" ++ close, close, s)`: replace a comma
followed by whitespace and the closing character by the closing character
alone.  Fuel only bounds the recursion; each replacement consumes the comma,
the whitespace run and the closing character, so fuel equal to the text
length never runs out. -/
def subTrailingCommaAux (close : Char) : Nat → List Char → List Char
  | _, [] => []
  | 0, l => l
  | fuel + 1, c :: cs =>
    if c = ',' then
      match cs.dropWhile isPySpace with
      | r :: rs =>
        if r = close then close :: subTrailingCommaAux close fuel rs
        else c :: subTrailingCommaAux close fuel cs
      | [] => c :: subTrailingCommaAux close fuel cs
    else c :: subTrailingCommaAux close fuel cs

/-- The substitution pass at its natural fuel. -/
def subTrailingComma (close : Char) (l : List Char) : List Char :=
  subTrailingCommaAux close l.length l

/-- The light repair applied to the selected substring: remove trailing commas
before closing braces, then before closing brackets. -/
def fixTrailingCommas (s : List Char) : List Char :=
  subTrailingComma ']' (subTrailingComma rbrace s)

/-- The full candidate-substring extraction of the fit-scoring stage
(`match_candidate_to_job`, lines 299-341): fence stripping, first-brace
location, depth scan, trailing-comma repair.  Errors carry the source's
message strings. -/
def extractJsonSingle (s : List Char) : Except String (List Char) :=
  let stripped := stripCodeFences s
  match dropToFirstBrace stripped with
  | none => .error "No JSON object found in agent output"
  | some rest =>
    match scanToClose rest 0 false false with
    | none => .error "Malformed JSON in agent output"
    | some obj => .ok (fixTrailingCommas obj)

/-- The candidate-substring extraction of the batch fit-scoring stage
(`match_candidate_to_jobs_batch`, lines 593-635); the source block is
textually identical to the single-job one. -/
def extractJsonBatch (s : List Char) : Except String (List Char) :=
  let stripped := stripCodeFences s
  match dropToFirstBrace stripped with
  | none => .error "No JSON object found in agent output"
  | some rest =>
    match scanToClose rest 0 false false with
    | none => .error "Malformed JSON in agent output"
    | some obj => .ok (fixTrailingCommas obj)

/-- The longest prefix of the text that ends with a closing brace, when the
text contains one. -/
def upToLastClose : List Char → Option (List Char)
  | [] => none
  | c :: cs =>
    match upToLastClose cs with
    | some r => some (c :: r)
    | none => if c = rbrace then some [c] else none

/-- The extraction used by `parse_resume`, `discover_jobs` and
`rank_job_matches`: Python `re.search` of an opening brace, a greedy any-char
run, and a closing brace.  The leftmost match starts at the first opening
brace and the greedy run extends to the last closing brace of the whole text;
there is no fence stripping, no depth tracking and no comma repair. -/
def regexBraceSpan (s : List Char) : Option (List Char) :=
  match dropToFirstBrace s with
  | none => none
  | some [] => none
  | some (c :: tl) => (upToLastClose tl).map (c :: ·)

/-! ## Domain model (`src/models/domain.py`) -/

/-- Standardized experience levels for job matching. -/
inductive ExperienceLevel where
  | entry
  | junior
  | mid
  | senior
  | lead
  | principal
deriving DecidableEq

/-- The string value of each experience-level member. -/
def ExperienceLevel.value : ExperienceLevel → String
  | .entry => "entry"
  | .junior => "junior"
  | .mid => "mid"
  | .senior => "senior"
  | .lead => "lead"
  | .principal => "principal"

/-- The closed set of valid skill-category values. -/
def validCategories : List String :=
  ["programming_language", "framework", "library", "tool", "platform",
   "soft_skill", "domain_knowledge", "database", "cloud", "devops",
   "methodology", "other"]

/-- Lookup table mapping common category variations to valid categories. -/
def categoryMapping : List (String × String) :=
  [("ai_machine_learning", "domain_knowledge"),
   ("machine_learning", "domain_knowledge"),
   ("artificial_intelligence", "domain_knowledge"),
   ("ai", "domain_knowledge"),
   ("ml", "domain_knowledge"),
   ("data_science", "domain_knowledge"),
   ("data_analytics", "domain_knowledge"),
   ("nlp", "domain_knowledge"),
   ("computer_vision", "domain_knowledge"),
   ("framework_library", "library"),
   ("frameworks_libraries", "library"),
   ("web_development", "framework"),
   ("frontend", "framework"),
   ("backend", "framework"),
   ("web_framework", "framework"),
   ("tool_platform", "tool"),
   ("tools_platforms", "tool"),
   ("language", "programming_language"),
   ("programming", "programming_language"),
   ("api", "tool"),
   ("testing", "methodology"),
   ("agile", "methodology"),
   ("scrum", "methodology"),
   ("version_control", "tool"),
   ("containerization", "devops"),
   ("orchestration", "devops"),
   ("ci_cd", "devops"),
   ("infrastructure", "cloud")]

/-- `Skill.normalize_category`: map any unknown category string to a valid
category value, defaulting to "other"; never a rejection. -/
def normalizeCategory (v : String) : String :=
  if validCategories.contains v then v
  else
    let normalized := ((v.toLower.trim).replace "/" "_").replace "-" "_"
    if validCategories.contains normalized then normalized
    else
      match categoryMapping.lookup normalized with
      | some m => m
      | none => "other"

/-- A single skill with proficiency level. -/
structure Skill where
  name : String
  category : String
  years_experience : Option Rat
  proficiency : Option String
deriving DecidableEq

/-- Pydantic construction of a `Skill`: the category validator always runs and
normalizes; `years_experience` carries a lower-bound constraint when given. -/
def Skill.construct (name category : String) (years_experience : Option Rat)
    (proficiency : Option String) : Except String Skill :=
  match years_experience with
  | some y =>
    if y < 0 then .error "years_experience must be greater than or equal to 0"
    else .ok ⟨name, normalizeCategory category, some y, proficiency⟩
  | none => .ok ⟨name, normalizeCategory category, none, proficiency⟩

/-- Structured representation of a candidate's resume. -/
structure CandidateProfile where
  name : Option String
  email : Option String
  summary : String
  skills : List Skill
  total_years_experience : Rat
  experience_level : ExperienceLevel
  previous_roles : List String
  previous_companies : List String
  education : List String
  raw_resume_text : String
  analyzed_at : String
deriving DecidableEq

/-- The mode-before experience-level validator: null becomes entry, strings
are matched case-insensitively against the member values, anything
unrecognized becomes entry. -/
def parseExperienceLevel (s : String) : ExperienceLevel :=
  let t := s.toLower.trim
  if t = "entry" then .entry
  else if t = "junior" then .junior
  else if t = "mid" then .mid
  else if t = "senior" then .senior
  else if t = "lead" then .lead
  else if t = "principal" then .principal
  else .entry

/-- Pydantic construction semantics for `CandidateProfile`.  For the fields
carrying validators the outer `Option` distinguishes an omitted field (`none`:
pydantic installs the declared default WITHOUT running the field validator on
it) from a provided value (`some`: the validator runs).  The inner `Option`
on the provided value is an explicit null, which the mode-before validators
convert.  `now` stands for the `datetime` default factory. -/
def CandidateProfile.construct
    (name email : Option String) (summary : String)
    (skills : Option (List Skill))
    (total_years_experience : Option (Option Rat))
    (experience_level : Option (Option String))
    (previous_roles previous_companies education : List String)
    (raw_resume_text : String) (now : String) :
    Except String CandidateProfile :=
  match skills with
  | some [] => .error "Candidate must have at least one skill"
  | _ =>
    let sk := skills.getD []
    let tye : Option Rat :=
      match total_years_experience with
      | none => some 0
      | some none => some 0
      | some (some q) => if q < 0 then none else some q
    match tye with
    | none => .error "total_years_experience must be greater than or equal to 0"
    | some t =>
      let lvl : ExperienceLevel :=
        match experience_level with
        | none => .entry
        | some none => .entry
        | some (some s) => parseExperienceLevel s
      .ok ⟨name, email, summary, sk, t, lvl, previous_roles,
           previous_companies, education, raw_resume_text, now⟩

/-- A job opportunity produced by the discovery stage. -/
structure JobPosting where
  job_id : String
  title : String
  company : String
  description : String
  required_skills : List String
  preferred_skills : List String
  experience_level : ExperienceLevel
  location : Option String
  salary_range : Option String
  remote_policy : Option String
  posted_date : Option String
  url : Option String
deriving DecidableEq

/-- How well one candidate skill matches one job requirement. -/
structure SkillMatch where
  skill_name : String
  candidate_has : Bool
  candidate_years : Option Rat
  required_years : Option Rat
  match_strength : Rat
  is_required : Bool
deriving DecidableEq

/-- Pydantic construction of a `SkillMatch`: `match_strength` is constrained
to the closed unit interval. -/
def SkillMatch.construct (skill_name : String) (candidate_has : Bool)
    (candidate_years required_years : Option Rat) (match_strength : Rat)
    (is_required : Bool) : Except String SkillMatch :=
  if match_strength < 0 || 1 < match_strength then
    .error "match_strength out of range"
  else
    .ok ⟨skill_name, candidate_has, candidate_years, required_years,
         match_strength, is_required⟩

/-- Complete evaluation of how well a candidate fits a job. -/
structure JobMatchResult where
  candidate_profile : CandidateProfile
  job_posting : JobPosting
  skill_matches : List SkillMatch
  overall_fit_score : Rat
  skill_match_score : Rat
  experience_match_score : Rat
  strengths : List String
  gaps : List String
  recommendation : String
  explanation : String
  evaluated_at : String
deriving DecidableEq

/-! ## Fit-scoring stage (`src/agents/skill_matcher.py`) -/

/-- Individual skill-match item of the structured model output. -/
structure SkillMatchItem where
  skill_name : String
  candidate_has : Bool
  candidate_years : Option Rat
  required_years : Option Rat
  match_strength : Rat
  is_required : Bool
deriving DecidableEq

/-- Structured output of the skill-matching generation call. -/
structure SkillMatchOutput where
  skill_matches : List SkillMatchItem
  overall_fit_score : Rat
  skill_match_score : Rat
  experience_match_score : Rat
  strengths : List String
  gaps : List String
  recommendation : String
  explanation : String
deriving DecidableEq

/-- Steps 4-5 of `match_candidate_to_job` after a structured output is in
hand: build `SkillMatch` objects from the items (each construction validated),
then construct the `JobMatchResult` with the model-supplied scores,
recommendation and explanation, validating the pydantic range constraints. -/
def buildJobMatchResult (candidate : CandidateProfile) (job : JobPosting)
    (now : String) (output : SkillMatchOutput) : Except String JobMatchResult := do
  let skill_matches ← output.skill_matches.mapM fun sm =>
    SkillMatch.construct sm.skill_name sm.candidate_has sm.candidate_years
      sm.required_years sm.match_strength sm.is_required
  if output.overall_fit_score < 0 || 100 < output.overall_fit_score then
    .error "overall_fit_score out of range"
  else if output.skill_match_score < 0 || 60 < output.skill_match_score then
    .error "skill_match_score out of range"
  else if output.experience_match_score < 0 || 30 < output.experience_match_score then
    .error "experience_match_score out of range"
  else
    .ok ⟨candidate, job, skill_matches, output.overall_fit_score,
         output.skill_match_score, output.experience_match_score,
         output.strengths, output.gaps, output.recommendation,
         output.explanation, now⟩

/-- The result of a generation call as the stage sees it: either the framework
already returned the structured model, or only raw text is available and the
extraction routine must run. -/
inductive GenResult (α : Type) where
  | structured (out : α)
  | raw (text : List Char)

/-- `match_candidate_to_job` from the parse step on, with the generation
outcome and the JSON decoding of the selected substring (`json.loads` plus
pydantic field parsing) supplied as inputs.  A structured result is used
as-is; otherwise the extraction routine selects and repairs a candidate
substring, which is decoded and validated. -/
def matchCandidateToJob (decodeSkill : List Char → Option SkillMatchOutput)
    (candidate : CandidateProfile) (job : JobPosting) (now : String)
    (gen : GenResult SkillMatchOutput) : Except String JobMatchResult :=
  match gen with
  | .structured out => buildJobMatchResult candidate job now out
  | .raw s =>
    match extractJsonSingle s with
    | .error e => .error e
    | .ok js =>
      match decodeSkill js with
      | none => .error "Agent output was not valid JSON"
      | some out => buildJobMatchResult candidate job now out

/-- The recommendation-label rule stated by the specification (and by the
instruction payload at `skill_matcher.py` lines 205-209): a pure function of
the overall fit score with thresholds at 75, 60 and 50.  Stated here for
comparison with what the code constructs. -/
def recommendationFromScore (score : Rat) : String :=
  if 75 ≤ score then "Strong Match - Recommend Interview"
  else if 60 ≤ score then "Good Match - Consider for Interview"
  else if 50 ≤ score then "Moderate Match - Review Carefully"
  else "Weak Match - Likely Not Suitable"

/-! ## Strategic ranking stage (`src/agents/ranking_agent.py`) -/

/-- One entry of the ranking report. -/
structure RankedJob where
  rank : Nat
  job_title : String
  company : String
  tier : String
  final_score : Rat
  ranking_rationale : String
  action_recommendation : String
deriving DecidableEq

/-- The ranking report returned by `rank_job_matches`. -/
structure RankingReport where
  ranked_jobs : List RankedJob
  overall_strategy : String
  top_recommendation : String
deriving DecidableEq

/-- Stable descending insertion by `overall_fit_score`: an element is placed
before the first strictly smaller score, after any equal score. -/
def insertByScoreDesc (x : JobMatchResult) :
    List JobMatchResult → List JobMatchResult
  | [] => [x]
  | y :: ys =>
    if y.overall_fit_score < x.overall_fit_score then x :: y :: ys
    else y :: insertByScoreDesc x ys

/-- Python `sorted(..., key=overall_fit_score, reverse=True)`: a stable
descending sort. -/
def sortByScoreDesc : List JobMatchResult → List JobMatchResult
  | [] => []
  | x :: xs => insertByScoreDesc x (sortByScoreDesc xs)

/-- One fallback-ranking entry (`_fallback_ranking` loop body): tier and
action by fixed thresholds on the score, rationale templated from the
score. -/
def fallbackEntry (i : Nat) (m : JobMatchResult) : RankedJob :=
  let tier_action : String × String :=
    if 75 ≤ m.overall_fit_score then ("TIER 1", "Apply immediately")
    else if 60 ≤ m.overall_fit_score then ("TIER 2", "Apply this week")
    else if 50 ≤ m.overall_fit_score then ("TIER 3", "Consider applying")
    else ("TIER 4", "Keep as backup")
  ⟨i, m.job_posting.title, m.job_posting.company, tier_action.1,
   m.overall_fit_score,
   "Ranked by match score (" ++ numRepr m.overall_fit_score ++ "/100)",
   tier_action.2⟩

/-- Enumeration starting at a given index, as Python `enumerate(xs, i)`. -/
def enumFrom {α β : Type} (f : Nat → α → β) : Nat → List α → List β
  | _, [] => []
  | i, x :: xs => f i x :: enumFrom f (i + 1) xs

/-- `_fallback_ranking`: sort by score descending, bucket into tiers, and
point the top recommendation at the first ranked entry.  The source indexes
`ranked_jobs[0]` unconditionally; it is only ever called on two or more
results, so the empty branch here is unreachable in context. -/
def fallbackRanking (match_results : List JobMatchResult) : RankingReport :=
  let sorted_results := sortByScoreDesc match_results
  let ranked_jobs := enumFrom fallbackEntry 1 sorted_results
  ⟨ranked_jobs,
   "Jobs ranked by match score. Focus on highest scoring opportunities first.",
   match ranked_jobs with
   | r :: _ => "Start with " ++ r.job_title ++ " at " ++ r.company
   | [] => ""⟩

/-- `rank_job_matches`.  The generation call and its parse
(`re.search` of a brace span plus `json.loads`) are modelled by `gen`:
`some r` is a successfully parsed report, `none` is a parse failure.  The
returned flag records whether the generator was invoked (the source reaches
`crew.kickoff()` only in the general case). -/
def rankJobMatches (gen : Option RankingReport)
    (match_results : List JobMatchResult) : RankingReport × Bool :=
  match match_results with
  | [] => (⟨[], "No jobs to rank", "Search for more opportunities"⟩, false)
  | [job] =>
    (⟨[⟨1, job.job_posting.title, job.job_posting.company,
        if 70 ≤ job.overall_fit_score then "TIER 1" else "TIER 2",
        job.overall_fit_score,
        "Only opportunity available. Score: " ++
          numRepr job.overall_fit_score ++ "/100",
        "Apply immediately"⟩],
      "This is your primary opportunity - focus on a strong application",
      "Apply to " ++ job.job_posting.title ++ " at " ++
        job.job_posting.company⟩,
     false)
  | _ =>
    match gen with
    | some parsed_data => (parsed_data, true)
    | none => (fallbackRanking match_results, true)

/-! ## Batch fit scoring (`match_candidate_to_jobs_batch`) -/

/-- Single job match within the structured batch output.  `job_index` is
declared with a nonnegativity constraint, so a validated output carries a
natural number. -/
structure BatchJobMatchResult where
  job_index : Nat
  skill_matches : List SkillMatchItem
  overall_fit_score : Rat
  skill_match_score : Rat
  experience_match_score : Rat
  strengths : List String
  gaps : List String
  recommendation : String
  explanation : String
deriving DecidableEq

/-- Structured output of the batch skill-matching generation call. -/
structure BatchSkillMatchOutput where
  job_matches : List BatchJobMatchResult
  batch_summary : String
deriving DecidableEq

/-- The per-job fields of a batch item, shaped as a single-job output. -/
def BatchJobMatchResult.toOutput (jm : BatchJobMatchResult) : SkillMatchOutput :=
  ⟨jm.skill_matches, jm.overall_fit_score, jm.skill_match_score,
   jm.experience_match_score, jm.strengths, jm.gaps, jm.recommendation,
   jm.explanation⟩

/-- Step 5 of the batch stage: walk the returned matches in order; a tag
outside the valid index range is skipped (with a warning) rather than
failing; a valid tag is resolved to its job and the match result is
constructed exactly as in the single variant.  A construction failure
anywhere aborts the whole batch, mirroring the surrounding try/except. -/
def buildBatchResults (candidate : CandidateProfile) (jobs : List JobPosting)
    (now : String) : List BatchJobMatchResult → Except String (List JobMatchResult)
  | [] => .ok []
  | jm :: rest =>
    if h : jm.job_index < jobs.length then do
      let r ← buildJobMatchResult candidate (jobs.get ⟨jm.job_index, h⟩) now
        jm.toOutput
      let tail ← buildBatchResults candidate jobs now rest
      pure (r :: tail)
    else
      buildBatchResults candidate jobs now rest

/-- `match_candidate_to_jobs_batch` from the parse step on: an empty job list
returns immediately with no generation call; a structured result is used
as-is; otherwise the shared extraction routine runs, followed by decoding
(supplied as input) and the per-item mapping. -/
def matchCandidateToJobsBatch
    (decodeBatch : List Char → Option BatchSkillMatchOutput)
    (candidate : CandidateProfile) (jobs : List JobPosting) (now : String)
    (gen : GenResult BatchSkillMatchOutput) :
    Except String (List JobMatchResult) :=
  if jobs = [] then .ok []
  else
    match gen with
    | .structured out => buildBatchResults candidate jobs now out.job_matches
    | .raw s =>
      match extractJsonBatch s with
      | .error e => .error e
      | .ok js =>
        match decodeBatch js with
        | none => .error "Agent output was not valid JSON"
        | some out => buildBatchResults candidate jobs now out.job_matches

/-! ## Job search tool (`src/tools/job_search_tools.py`) -/

/-- A raw opportunity record from the external search API, with every field
optional (the source reads each with `.get` and a default). -/
structure RawApiJob where
  job_id : Option String
  job_title : Option String
  employer_name : Option String
  job_description : Option String
  job_city : Option String
  job_country : Option String
  job_employment_type : Option String
  job_apply_link : Option String
  job_posted_at_datetime_utc : Option String
deriving DecidableEq

/-- The simplified record the tool hands back. -/
structure ToolJobRecord where
  job_id : String
  title : String
  company : String
  description : String
  required_skills : List String
  location : String
  employment_type : String
  url : String
  posted_date : String
deriving DecidableEq

/-- The keyword list `_extract_skills` scans for. -/
def skillKeywords : List String :=
  ["python", "java", "javascript", "typescript", "react", "angular", "vue",
   "node.js", "django", "flask", "fastapi", "spring", "kubernetes", "docker",
   "aws", "azure", "gcp", "sql", "postgresql", "mongodb", "redis",
   "machine learning", "deep learning", "tensorflow", "pytorch",
   "git", "ci/cd", "agile", "scrum", "rest api", "graphql"]

/-- Python `str.title()` on ASCII text: the first alphabetic character of
each alphabetic run is uppercased, the rest lowercased. -/
def pyTitleAux : Bool → List Char → List Char
  | _, [] => []
  | prevAlpha, c :: cs =>
    let c2 :=
      if c.isAlpha then (if prevAlpha then c.toLower else c.toUpper) else c
    c2 :: pyTitleAux c.isAlpha cs

/-- Python `str.title()`. -/
def pyTitle (s : String) : String := ⟨pyTitleAux false s.data⟩

/-- `_extract_skills`: keywords found in the lowercased description, in
keyword-list order, title-cased, capped at ten. -/
def extractSkills (description : String) : List String :=
  let dl := description.toLower
  ((skillKeywords.filter fun sk => decide (sk.data <:+: dl.data)).map pyTitle).take 10

/-- `JobSearchTool._run`: on API failure a single in-band error record is
returned; otherwise the listings are truncated to the requested count and
simplified field by field (description truncated to 1000 characters, skills
extracted by keyword scan, city falling back to country). -/
def toolRun (api : Except String (List RawApiJob)) (num_results : Nat) :
    List (Except String ToolJobRecord) :=
  match api with
  | .error e => [.error ("API request failed: " ++ e)]
  | .ok data =>
    (data.take num_results).map fun job =>
      .ok ⟨job.job_id.getD "", job.job_title.getD "",
           job.employer_name.getD "",
           String.mk ((job.job_description.getD "").data.take 1000),
           extractSkills (job.job_description.getD ""),
           (if job.job_city.getD "" = "" then job.job_country.getD ""
            else job.job_city.getD ""),
           job.job_employment_type.getD "", job.job_apply_link.getD "",
           job.job_posted_at_datetime_utc.getD ""⟩

/-- `search_jobs_for_candidate`: run the tool, skip in-band error records, and
map each simplified record to a `JobPosting` (experience level defaulted to
mid, preferred skills empty).  With every field a string already in hand, the
per-record construction cannot fail, so only error records are dropped. -/
def searchJobsForCandidate (api : Except String (List RawApiJob))
    (num_results : Nat) : List JobPosting :=
  (toolRun api num_results).filterMap fun r =>
    match r with
    | .error _ => none
    | .ok d =>
      some ⟨d.job_id, d.title, d.company, d.description, d.required_skills,
            [], .mid, some d.location, none, none, none, some d.url⟩

/-! ## Opportunity discovery (`src/agents/job_discovery.py`) -/

/-- One entry of the model's `recommended_jobs` list; `none` models a missing
`job_id` key, whose access raises a `KeyError`. -/
structure RecommendedJob where
  job_id : Option String
deriving DecidableEq

/-- The parse outcome of the discovery generation call: either no JSON object
was found / decoding failed, or a parsed object whose `recommended_jobs`
entry (defaulted to the empty list) is in hand. -/
inductive DiscoveryGen where
  | unparseable
  | parsed (recommended_jobs : List RecommendedJob)
deriving DecidableEq

/-- The `job_id` of every recommended entry, left to right; `none` as soon as
one entry lacks the key (the comprehension raises `KeyError` there). -/
def allIds : List RecommendedJob → Option (List String)
  | [] => some []
  | r :: rs =>
    match r.job_id with
    | none => none
    | some i => (allIds rs).map (i :: ·)

/-- `discover_jobs` from the parse step on.  Parse failure and the `KeyError`
path both land in the catch-all fallback: a direct search for the requested
count.  An empty recommendation list likewise falls back directly.  Otherwise
the stage re-searches the top ten, keeps the recommended ids, discards the
recommendation entirely when fewer than three survive, and truncates to the
requested count. -/
def discoverJobs (api : Except String (List RawApiJob)) (gen : DiscoveryGen)
    (num_jobs : Nat) : List JobPosting :=
  match gen with
  | .unparseable => searchJobsForCandidate api num_jobs
  | .parsed recommended =>
    if recommended = [] then searchJobsForCandidate api num_jobs
    else
      match allIds recommended with
      | none => searchJobsForCandidate api num_jobs
      | some recommended_job_ids =>
        let all_jobs := searchJobsForCandidate api 10
        let filtered_jobs :=
          all_jobs.filter fun job => recommended_job_ids.contains job.job_id
        let filtered_jobs2 :=
          if filtered_jobs.length < 3 then all_jobs.take num_jobs
          else filtered_jobs
        filtered_jobs2.take num_jobs

/-! ## Pipeline orchestrator (`src/core/job_search_crew.py`) -/

/-- The orchestrator's accumulated state. -/
structure CrewState where
  candidate_profile : Option CandidateProfile
  discovered_jobs : List JobPosting
  job_matches : List JobMatchResult
  ranking : Option RankingReport
  execution_log : List String
deriving DecidableEq

/-- `JobSearchCrew.log`: append one timestamped entry to the execution log. -/
def crewLog (timestamp : String) (st : CrewState) (message : String) :
    CrewState :=
  ⟨st.candidate_profile, st.discovered_jobs, st.job_matches, st.ranking,
   st.execution_log ++ ["[" ++ timestamp ++ "] " ++ message]⟩

/-- The per-job loop of `match_all_jobs`: log the attempt, call the single-job
scorer, and on success append the result and log the score, on failure log
the failure and continue with the next job.  `clock` supplies the timestamp
of each successive log call; decorative emoji prefixes of the source messages
are omitted. -/
def matchJobsLoop (matcher : JobPosting → Except String JobMatchResult)
    (clock : Nat → String) (total : Nat) :
    List JobPosting → Nat → Nat → CrewState → CrewState
  | [], _, _, st => st
  | job :: rest, i, k, st =>
    let stA := crewLog (clock k) st
      ("   Matching job " ++ toString i ++ "/" ++ toString total ++ ": " ++
        job.title)
    match matcher job with
    | .ok match_result =>
      let stB : CrewState :=
        ⟨stA.candidate_profile, stA.discovered_jobs,
         stA.job_matches ++ [match_result], stA.ranking, stA.execution_log⟩
      let stC := crewLog (clock (k + 1)) stB
        ("   Score: " ++ numRepr match_result.overall_fit_score ++ "/100")
      matchJobsLoop matcher clock total rest (i + 1) (k + 2) stC
    | .error e =>
      let stB := crewLog (clock (k + 1)) stA
        ("   Failed to match job " ++ toString i ++ ": " ++ e)
      matchJobsLoop matcher clock total rest (i + 1) (k + 2) stB

/-- `JobSearchCrew.match_all_jobs`: the two precondition checks come first and
raise before anything is logged; then the step is logged, the match list is
reset, every discovered job is attempted through the loop, and a completion
entry is logged.  A raised error carries the state as it stands at the raise
(Python leaves the object mutated in place). -/
def matchAllJobs (matcher : JobPosting → Except String JobMatchResult)
    (clock : Nat → String) (st : CrewState) :
    Except (String × CrewState) (List JobMatchResult × CrewState) :=
  if st.candidate_profile.isNone then .error ("Must analyze resume first", st)
  else if st.discovered_jobs = [] then .error ("Must discover jobs first", st)
  else
    let st1 := crewLog (clock 0) st
      ("Step 3/5: Matching candidate to " ++
        toString st.discovered_jobs.length ++ " jobs...")
    let st2 : CrewState :=
      ⟨st1.candidate_profile, st1.discovered_jobs, [], st1.ranking,
       st1.execution_log⟩
    let st3 := matchJobsLoop matcher clock st.discovered_jobs.length
      st.discovered_jobs 1 1 st2
    let st4 := crewLog (clock (1 + 2 * st.discovered_jobs.length)) st3
      ("Completed " ++ toString st3.job_matches.length ++ " job matches")
    .ok (st4.job_matches, st4)

/-! ## Sample values used by concrete instances -/

/-- A sample skill. -/
def sampleSkill : Skill := ⟨"Python", "programming_language", some 3, some "advanced"⟩

/-- A sample candidate profile. -/
def sampleProfile : CandidateProfile :=
  ⟨some "Jane", none, "Python developer", [sampleSkill], 3, .mid, [], [], [], "", "t0"⟩

/-- A sample job posting. -/
def sampleJob : JobPosting :=
  ⟨"1", "Backend Engineer", "Acme", "desc", ["Python"], [], .mid, none, none,
   none, none, none⟩

/-- A single-job scorer that always raises. -/
def failingMatcher : JobPosting → Except String JobMatchResult :=
  fun _ => .error "boom"

/-- A constant timestamp source. -/
def constClock : Nat → String := fun _ => "00:00:00"

/-- The freshly initialized orchestrator state. -/
def emptyState : CrewState := ⟨none, [], [], none, []⟩

/-- An orchestrator state with a profile and one discovered job. -/
def sampleState : CrewState := ⟨some sampleProfile, [sampleJob], [], none, []⟩

/-- A structured scoring output whose recommendation label contradicts its
score under the threshold rule. -/
def cexOut80 : SkillMatchOutput :=
  ⟨[], 80, 50, 25, [], [], "Weak Match - Likely Not Suitable", "x"⟩

/-- The match result the stage constructs from `cexOut80`. -/
def c3result : JobMatchResult :=
  ⟨sampleProfile, sampleJob, [], 80, 50, 25, [], [],
   "Weak Match - Likely Not Suitable", "x", "t"⟩

/-! ## C10: the skills-non-empty invariant -/

/-- C10: the claim states that every successfully constructed
`CandidateProfile` has a non-empty skills list and that every attempted
construction with an empty skills list fails validation.  The validator does
fire when the field is provided explicitly empty, but pydantic does not run
field validators on defaults: omitting the field altogether succeeds and
yields a profile whose skills list is empty, contradicting the claim and the
validator's own stated business rule. -/
theorem C10_default_bypass :
    CandidateProfile.construct none none "s" (some []) none none [] [] [] "r" "t" =
      .error "Candidate must have at least one skill" ∧
    CandidateProfile.construct none none "s" none none none [] [] [] "r" "t" =
      .ok ⟨none, none, "s", [], 0, .entry, [], [], [], "r", "t"⟩ :=
  ⟨rfl, rfl⟩

/-! ## C3: the recommendation label -/

/-- C3 counterexample: the fit-scoring stage copies the model-supplied
recommendation verbatim, so it can produce a `JobMatchResult` whose label
disagrees with the threshold rule on its own score: here a score of 80 paired
with the weak-match label, where the claimed pure function would give the
strong-match label. -/
theorem C3_counterexample :
    matchCandidateToJob (fun _ => none) sampleProfile sampleJob "t"
        (.structured cexOut80) = .ok c3result ∧
    recommendationFromScore c3result.overall_fit_score =
      "Strong Match - Recommend Interview" ∧
    c3result.recommendation ≠ recommendationFromScore c3result.overall_fit_score := by
  refine ⟨rfl, by decide, by decide⟩

/-- C3 amended: every result the fit-scoring stage constructs carries the
model-supplied recommendation and overall score unchanged; the threshold rule
appears only in the instruction payload and is not enforced in code. -/
theorem C3_label_passthrough (candidate : CandidateProfile) (job : JobPosting)
    (now : String) (output : SkillMatchOutput) (r : JobMatchResult)
    (h : buildJobMatchResult candidate job now output = .ok r) :
    r.recommendation = output.recommendation ∧
    r.overall_fit_score = output.overall_fit_score := by
  unfold buildJobMatchResult at h
  cases hm : output.skill_matches.mapM fun sm =>
      SkillMatch.construct sm.skill_name sm.candidate_has sm.candidate_years
        sm.required_years sm.match_strength sm.is_required with
  | error e =>
    rw [hm] at h
    simp only [Bind.bind, Except.bind] at h
    cases h
  | ok l =>
    rw [hm] at h
    simp only [Bind.bind, Except.bind] at h
    split at h
    · cases h
    · split at h
      · cases h
      · split at h
        · cases h
        · cases h
          exact ⟨rfl, rfl⟩

/-- C3 witness: the pass-through theorem applied at the concrete
counterexample output. -/
theorem C3_witness :
    c3result.recommendation = cexOut80.recommendation ∧
    c3result.overall_fit_score = cexOut80.overall_fit_score :=
  C3_label_passthrough sampleProfile sampleJob "t" cexOut80 c3result rfl

/-! ## C6: trivial ranking cases -/

/-- C6: ranking zero inputs returns the fixed empty report with no generation
call; ranking exactly one input returns a single-entry report with no
generation call, whose tier is TIER 1 exactly when the score is at least 70
and TIER 2 otherwise. -/
theorem C6_trivial_cases :
    (∀ gen, rankJobMatches gen [] =
      (⟨[], "No jobs to rank", "Search for more opportunities"⟩, false)) ∧
    (∀ gen (m : JobMatchResult),
      (rankJobMatches gen [m]).2 = false ∧
      (rankJobMatches gen [m]).1.ranked_jobs =
        [⟨1, m.job_posting.title, m.job_posting.company,
          if 70 ≤ m.overall_fit_score then "TIER 1" else "TIER 2",
          m.overall_fit_score,
          "Only opportunity available. Score: " ++
            numRepr m.overall_fit_score ++ "/100",
          "Apply immediately"⟩] ∧
      ((rankJobMatches gen [m]).1.ranked_jobs.map RankedJob.tier = ["TIER 1"] ↔
        70 ≤ m.overall_fit_score)) := by
  refine ⟨fun gen => rfl, fun gen m => ⟨rfl, rfl, ?_⟩⟩
  by_cases hs : 70 ≤ m.overall_fit_score
  · simp [rankJobMatches, hs]
  · simp [rankJobMatches, hs]

/-! ## C1 and C2: the orchestrator's scoring transition -/

/-- The accumulated match list of the per-job loop: the prior accumulator
followed by exactly the successful scoring results, in input order. -/
theorem matchJobsLoop_job_matches
    (matcher : JobPosting → Except String JobMatchResult)
    (clock : Nat → String) (total : Nat) (jobs : List JobPosting)
    (i k : Nat) (st : CrewState) :
    (matchJobsLoop matcher clock total jobs i k st).job_matches =
      st.job_matches ++ jobs.filterMap fun j => (matcher j).toOption := by
  induction jobs generalizing i k st with
  | nil => simp [matchJobsLoop]
  | cons job rest ih =>
    simp only [matchJobsLoop]
    cases hm : matcher job with
    | ok r =>
      simp [hm, crewLog, ih, Except.toOption]
    | error e =>
      simp [hm, crewLog, ih, Except.toOption]

/-- C1 counterexample: with a profile and one discovered job present and a
scorer that always raises, the scoring transition returns successfully with
an empty result set instead of re-raising — the failed opportunity is
silently omitted. -/
theorem C1_counterexample :
    matchAllJobs failingMatcher constClock sampleState =
      .ok ([], ⟨some sampleProfile, [sampleJob], [], none,
        ["[00:00:00] Step 3/5: Matching candidate to 1 jobs...",
         "[00:00:00]    Matching job 1/1: Backend Engineer",
         "[00:00:00]    Failed to match job 1: boom",
         "[00:00:00] Completed 0 job matches"]⟩) ∧
    sampleState.discovered_jobs.length = 1 := by
  exact ⟨rfl, rfl⟩

/-- C1 amended: once the preconditions hold, the scoring transition never
re-raises a single-job scoring failure: each failure is logged and skipped,
and the transition returns exactly the successful matches, silently omitting
every failed opportunity. -/
theorem C1_failures_absorbed
    (matcher : JobPosting → Except String JobMatchResult)
    (clock : Nat → String) (st : CrewState)
    (hp : st.candidate_profile.isSome = true) (hj : st.discovered_jobs ≠ []) :
    (matchAllJobs matcher clock st).map Prod.fst =
      .ok (st.discovered_jobs.filterMap fun j => (matcher j).toOption) := by
  rcases Option.isSome_iff_exists.mp hp with ⟨p, hpEq⟩
  simp [matchAllJobs, hpEq, hj, Except.map, crewLog, matchJobsLoop_job_matches]

/-- C1 witness: the amended theorem at the concrete failing state. -/
theorem C1_witness :
    (matchAllJobs failingMatcher constClock sampleState).map Prod.fst = .ok [] :=
  C1_failures_absorbed failingMatcher constClock sampleState rfl (by decide)

/-- C2 counterexample: invoking the scoring transition on the freshly
initialized state raises the precondition error with the state — in
particular the execution log — unchanged: no trace entry is appended,
contradicting the claim that every transition appends one. -/
theorem C2_counterexample :
    matchAllJobs failingMatcher constClock emptyState =
      .error ("Must analyze resume first", emptyState) ∧
    emptyState.execution_log = [] :=
  ⟨rfl, rfl⟩

/-- C2 amended: when no profile or no opportunities exist the scoring
transition raises a precondition error before any generation call — the
outcome is independent of the scorer — but WITHOUT appending a trace entry:
the raise happens before the step is logged and the state is returned
unchanged. -/
theorem C2_precondition_silent (st : CrewState) (clock : Nat → String)
    (m₁ m₂ : JobPosting → Except String JobMatchResult)
    (h : st.candidate_profile = none ∨ st.discovered_jobs = []) :
    (matchAllJobs m₁ clock st = .error ("Must analyze resume first", st) ∨
     matchAllJobs m₁ clock st = .error ("Must discover jobs first", st)) ∧
    matchAllJobs m₁ clock st = matchAllJobs m₂ clock st := by
  cases hp : st.candidate_profile with
  | none =>
    constructor
    · left
      simp [matchAllJobs, hp]
    · simp [matchAllJobs, hp]
  | some p =>
    have hj : st.discovered_jobs = [] := by
      rcases h with h | h
      · rw [hp] at h
        cases h
      · exact h
    constructor
    · right
      simp [matchAllJobs, hp, hj]
    · simp [matchAllJobs, hp, hj]

/-- C2 witness: the amended theorem at the freshly initialized state. -/
theorem C2_witness :
    matchAllJobs failingMatcher constClock emptyState =
      matchAllJobs (fun _ => .error "other") constClock emptyState :=
  (C2_precondition_silent emptyState constClock failingMatcher
    (fun _ => .error "other") (Or.inl rfl)).2

/-! ## C9: batch tag handling -/

/-- A batch item carrying an out-of-range tag. -/
def offItem : BatchJobMatchResult := ⟨5, [], 50, 30, 15, [], [], "rec", "exp"⟩

/-- A valid batch item tagged with index 0. -/
def dupItem : BatchJobMatchResult := ⟨0, [], 50, 30, 15, [], [], "rec", "exp"⟩

/-- The tags of a batch output that survive the range check. -/
def keptTags (n : Nat) (ms : List BatchJobMatchResult) : List Nat :=
  (ms.map BatchJobMatchResult.job_index).filter (· < n)

/-- The mapped batch result count equals the number of in-range tags. -/
theorem buildBatchResults_length (candidate : CandidateProfile)
    (jobs : List JobPosting) (now : String) :
    ∀ ms rs, buildBatchResults candidate jobs now ms = .ok rs →
      rs.length = (keptTags jobs.length ms).length := by
  intro ms
  induction ms with
  | nil =>
    intro rs h
    cases h
    rfl
  | cons jm rest ih =>
    intro rs h
    by_cases hidx : jm.job_index < jobs.length
    · simp only [buildBatchResults, dif_pos hidx, Bind.bind, Except.bind] at h
      cases hb : buildJobMatchResult candidate (jobs.get ⟨jm.job_index, hidx⟩)
          now jm.toOutput with
      | error e => rw [hb] at h; cases h
      | ok r =>
        rw [hb] at h
        cases ht : buildBatchResults candidate jobs now rest with
        | error e => rw [ht] at h; cases h
        | ok tail =>
          rw [ht] at h
          cases h
          have := ih tail ht
          simp [keptTags, List.filter_cons, hidx] at this ⊢
          omega
    · simp only [buildBatchResults, dif_neg hidx] at h
      have := ih rs h
      simp [keptTags, List.filter_cons, hidx] at this ⊢
      omega

/-- A duplicate-free list of naturals all below a bound has length at most
the bound. -/
theorem nodup_lt_length_le {l : List Nat} {n : Nat} (hnd : l.Nodup)
    (hlt : ∀ x ∈ l, x < n) : l.length ≤ n := by
  have h1 : l.toFinset.card = l.length := List.toFinset_card_of_nodup hnd
  have h2 : l.toFinset ⊆ Finset.range n := by
    intro x hx
    exact Finset.mem_range.mpr (hlt x (List.mem_toFinset.mp hx))
  calc l.length = l.toFinset.card := h1.symm
    _ ≤ (Finset.range n).card := Finset.card_le_card h2
    _ = n := Finset.card_range n

/-- C9 counterexample: with one input job, a validly parsed batch output that
tags two matches with the same in-range index yields a result list of length
two — strictly more than N — without raising.  The stage does not
de-duplicate tags, so the claimed bound of N fails. -/
theorem C9_counterexample :
    (matchCandidateToJobsBatch (fun _ => none) sampleProfile [sampleJob] "t"
        (.structured ⟨[dupItem, dupItem], "s"⟩)).map List.length = .ok 2 ∧
    ¬(2 ≤ [sampleJob].length) :=
  ⟨rfl, by decide⟩

/-- C9 amended: a tag outside the valid range is skipped without raising; the
result count is bounded by the number of returned matches, and bounded by N
whenever the returned tags are pairwise distinct (the code never
de-duplicates them). -/
theorem C9_batch_tag_handling (candidate : CandidateProfile)
    (jobs : List JobPosting) (now : String) :
    (∀ jm rest, jobs.length ≤ jm.job_index →
      buildBatchResults candidate jobs now (jm :: rest) =
        buildBatchResults candidate jobs now rest) ∧
    (∀ ms rs, buildBatchResults candidate jobs now ms = .ok rs →
      rs.length ≤ ms.length ∧
      ((ms.map BatchJobMatchResult.job_index).Nodup → rs.length ≤ jobs.length)) := by
  constructor
  · intro jm rest hge
    simp [buildBatchResults, dif_neg (Nat.not_lt.mpr hge)]
  · intro ms rs h
    have hlen := buildBatchResults_length candidate jobs now ms rs h
    constructor
    · calc rs.length = (keptTags jobs.length ms).length := hlen
        _ ≤ (ms.map BatchJobMatchResult.job_index).length :=
            List.Sublist.length_le (List.filter_sublist _)
        _ = ms.length := List.length_map _ _
    · intro hnd
      rw [hlen]
      refine nodup_lt_length_le (hnd.filter _) ?_
      intro x hx
      have := List.of_mem_filter hx
      simpa using this

/-- C9 witness: the skip property of the amended theorem at a concrete
out-of-range tag. -/
theorem C9_witness :
    buildBatchResults sampleProfile [sampleJob] "t" [offItem] =
      buildBatchResults sampleProfile [sampleJob] "t" [] :=
  (C9_batch_tag_handling sampleProfile [sampleJob] "t").1 offItem [] (by decide)

/-! ## C7: the deterministic ranking fallback -/

/-- The tier assigned by the fallback thresholds, as the specification states
them. -/
def fallbackTier (score : Rat) : String :=
  if 75 ≤ score then "TIER 1"
  else if 60 ≤ score then "TIER 2"
  else if 50 ≤ score then "TIER 3"
  else "TIER 4"

/-- The action assigned by the fallback thresholds, as the specification
states them. -/
def fallbackAction (score : Rat) : String :=
  if 75 ≤ score then "Apply immediately"
  else if 60 ≤ score then "Apply this week"
  else if 50 ≤ score then "Consider applying"
  else "Keep as backup"

/-- The fallback entry's score is the match's overall fit score. -/
theorem fallbackEntry_final_score (i : Nat) (m : JobMatchResult) :
    (fallbackEntry i m).final_score = m.overall_fit_score := rfl

/-- The fallback entry's tier follows the threshold rule. -/
theorem fallbackEntry_tier (i : Nat) (m : JobMatchResult) :
    (fallbackEntry i m).tier = fallbackTier m.overall_fit_score := by
  unfold fallbackEntry fallbackTier
  split_ifs <;> rfl

/-- The fallback entry's action follows the threshold rule. -/
theorem fallbackEntry_action (i : Nat) (m : JobMatchResult) :
    (fallbackEntry i m).action_recommendation =
      fallbackAction m.overall_fit_score := by
  unfold fallbackEntry fallbackAction
  split_ifs <;> rfl

/-- The fallback entry's rationale is templated from the score. -/
theorem fallbackEntry_rationale (i : Nat) (m : JobMatchResult) :
    (fallbackEntry i m).ranking_rationale =
      "Ranked by match score (" ++ numRepr m.overall_fit_score ++ "/100)" := rfl

/-- Membership in the descending insertion. -/
theorem mem_insertByScoreDesc {z x : JobMatchResult} :
    ∀ {l : List JobMatchResult}, z ∈ insertByScoreDesc x l → z = x ∨ z ∈ l := by
  intro l
  induction l with
  | nil =>
    intro h
    simp only [insertByScoreDesc, List.mem_singleton] at h
    exact Or.inl h
  | cons y ys ih =>
    intro h
    simp only [insertByScoreDesc] at h
    split at h
    · rcases List.mem_cons.mp h with h | h
      · exact Or.inl h
      · exact Or.inr h
    · rcases List.mem_cons.mp h with h | h
      · exact Or.inr (h ▸ List.mem_cons_self y ys)
      · rcases ih h with h | h
        · exact Or.inl h
        · exact Or.inr (List.mem_cons_of_mem y h)

/-- The descending insertion preserves descending pairwise order. -/
theorem pairwise_insertByScoreDesc (x : JobMatchResult)
    (l : List JobMatchResult)
    (hl : l.Pairwise fun a b => b.overall_fit_score ≤ a.overall_fit_score) :
    (insertByScoreDesc x l).Pairwise
      fun a b => b.overall_fit_score ≤ a.overall_fit_score := by
  induction l with
  | nil => simp [insertByScoreDesc]
  | cons y ys ih =>
    rcases List.pairwise_cons.mp hl with ⟨hy, hys⟩
    simp only [insertByScoreDesc]
    split
    · rename_i hlt
      refine List.pairwise_cons.mpr ⟨?_, hl⟩
      intro z hz
      rcases List.mem_cons.mp hz with rfl | hz
      · exact le_of_lt hlt
      · exact le_trans (hy z hz) (le_of_lt hlt)
    · rename_i hnlt
      refine List.pairwise_cons.mpr ⟨?_, ih hys⟩
      intro z hz
      rcases mem_insertByScoreDesc hz with rfl | hz
      · exact not_lt.mp hnlt
      · exact hy z hz

/-- The stable descending sort is pairwise descending. -/
theorem pairwise_sortByScoreDesc (l : List JobMatchResult) :
    (sortByScoreDesc l).Pairwise
      fun a b => b.overall_fit_score ≤ a.overall_fit_score := by
  induction l with
  | nil => simp [sortByScoreDesc]
  | cons x xs ih => exact pairwise_insertByScoreDesc x _ ih

/-- The enumerated fallback entries carry the sorted scores. -/
theorem enumFrom_map_score (i : Nat) (l : List JobMatchResult) :
    (enumFrom fallbackEntry i l).map RankedJob.final_score =
      l.map JobMatchResult.overall_fit_score := by
  induction l generalizing i with
  | nil => rfl
  | cons x xs ih => simp [enumFrom, fallbackEntry_final_score, ih]

/-- Every member of an enumeration is the image of a list member. -/
theorem mem_enumFrom {α β : Type} {f : Nat → α → β} {z : β} :
    ∀ {i : Nat} {l : List α}, z ∈ enumFrom f i l → ∃ j x, x ∈ l ∧ z = f j x := by
  intro i l
  induction l generalizing i with
  | nil => intro h; cases h
  | cons x xs ih =>
    intro h
    rcases List.mem_cons.mp h with h | h
    · exact ⟨i, x, List.mem_cons_self x xs, h⟩
    · rcases ih h with ⟨j, y, hy, hz⟩
      exact ⟨j, y, List.mem_cons_of_mem x hy, hz⟩

/-- Sample match results with scores 85, 60 and 40. -/
def jobB : JobPosting :=
  ⟨"2", "Data Engineer", "Globex", "d", [], [], .mid, none, none, none, none, none⟩

/-- A third sample posting. -/
def jobC : JobPosting :=
  ⟨"3", "ML Engineer", "Initech", "d", [], [], .mid, none, none, none, none, none⟩

/-- A match result with score 85. -/
def m85 : JobMatchResult :=
  ⟨sampleProfile, sampleJob, [], 85, 55, 30, [], [], "r", "e", "t"⟩

/-- A match result with score 60. -/
def m60 : JobMatchResult :=
  ⟨sampleProfile, jobB, [], 60, 40, 20, [], [], "r", "e", "t"⟩

/-- A match result with score 40. -/
def m40 : JobMatchResult :=
  ⟨sampleProfile, jobC, [], 40, 25, 15, [], [], "r", "e", "t"⟩

/-- C7: on two or more inputs with an unparseable generation output,
`rank_job_matches` returns exactly the deterministic fallback: the inputs
sorted by score descending, every entry's tier and action given by the fixed
thresholds and its rationale templated from the score; concretely, scores
[85, 60, 40] yield tiers [TIER 1, TIER 2, TIER 4] in descending order with
the top recommendation naming the score-85 posting. -/
theorem C7_deterministic_fallback (ms : List JobMatchResult)
    (h : 2 ≤ ms.length) :
    rankJobMatches none ms = (fallbackRanking ms, true) ∧
    ((fallbackRanking ms).ranked_jobs.map RankedJob.final_score).Pairwise
      (fun a b => b ≤ a) ∧
    (∀ e ∈ (fallbackRanking ms).ranked_jobs,
      e.tier = fallbackTier e.final_score ∧
      e.action_recommendation = fallbackAction e.final_score ∧
      e.ranking_rationale =
        "Ranked by match score (" ++ numRepr e.final_score ++ "/100)") ∧
    ((rankJobMatches none [m85, m60, m40]).1.ranked_jobs.map RankedJob.tier =
        ["TIER 1", "TIER 2", "TIER 4"] ∧
     (rankJobMatches none [m85, m60, m40]).1.ranked_jobs.map
        RankedJob.final_score = [85, 60, 40] ∧
     (rankJobMatches none [m85, m60, m40]).1.top_recommendation =
        "Start with " ++ m85.job_posting.title ++ " at " ++
          m85.job_posting.company) := by
  obtain ⟨a, b, t, rfl⟩ : ∃ a b t, ms = a :: b :: t := by
    match ms, h with
    | a :: b :: t, _ => exact ⟨a, b, t, rfl⟩
  refine ⟨rfl, ?_, ?_, ?_, ?_, ?_⟩
  · show ((fallbackRanking (a :: b :: t)).ranked_jobs.map
      RankedJob.final_score).Pairwise fun x y => y ≤ x
    simp only [fallbackRanking, enumFrom_map_score]
    exact List.pairwise_map.mpr (pairwise_sortByScoreDesc (a :: b :: t))
  · intro e he
    simp only [fallbackRanking] at he
    rcases mem_enumFrom he with ⟨j, x, hx, rfl⟩
    exact ⟨by rw [fallbackEntry_tier, fallbackEntry_final_score],
           by rw [fallbackEntry_action, fallbackEntry_final_score],
           by rw [fallbackEntry_rationale, fallbackEntry_final_score]⟩
  · rfl
  · rfl
  · rfl

/-- C7 witness: the fallback equality at the concrete three-element input. -/
theorem C7_witness :
    rankJobMatches none [m85, m60, m40] = (fallbackRanking [m85, m60, m40], true) :=
  (C7_deterministic_fallback [m85, m60, m40] (by decide)).1

/-! ## C8: discovery fallbacks and bounds -/

/-- The search bridge returns at most the requested number of postings. -/
theorem searchJobs_length_le (api : Except String (List RawApiJob)) (k : Nat) :
    (searchJobsForCandidate api k).length ≤ k := by
  cases api with
  | error e => simp [searchJobsForCandidate, toolRun]
  | ok data =>
    calc (searchJobsForCandidate (.ok data) k).length
        ≤ (toolRun (.ok data) k).length := List.length_filterMap_le _ _
      _ = (data.take k).length := by simp [toolRun]
      _ ≤ k := List.length_take_le k data

/-- A filter-map whose function always returns a value is a map. -/
theorem filterMap_eq_map_of_some {α β : Type} {F : α → Option β} {H : α → β}
    (hF : ∀ x, F x = some (H x)) : ∀ l : List α, l.filterMap F = l.map H := by
  intro l
  induction l with
  | nil => rfl
  | cons x xs ih => simp [List.filterMap_cons, hF, ih]

/-- For a count within the collaborator's cap, truncating the top-ten search
equals searching for that count directly. -/
theorem searchJobs_take (api : Except String (List RawApiJob)) (n : Nat)
    (hn : n ≤ 10) :
    (searchJobsForCandidate api 10).take n = searchJobsForCandidate api n := by
  cases api with
  | error e => simp [searchJobsForCandidate, toolRun]
  | ok data =>
    have hmap : ∀ k, searchJobsForCandidate (.ok data) k =
        (data.take k).map fun job =>
          (⟨(job.job_id.getD ""), (job.job_title.getD ""),
            (job.employer_name.getD ""),
            String.mk ((job.job_description.getD "").data.take 1000),
            extractSkills (job.job_description.getD ""),
            [], .mid,
            some (if job.job_city.getD "" = "" then job.job_country.getD ""
                  else job.job_city.getD ""),
            none, none, none, some (job.job_apply_link.getD "")⟩ : JobPosting) := by
      intro k
      simp only [searchJobsForCandidate, toolRun, List.filterMap_map]
      exact filterMap_eq_map_of_some (fun x => rfl) _
    rw [hmap, hmap, ← List.map_take, List.take_take, Nat.min_eq_left hn]

/-- C8: discovery never raises and returns at most N postings: the result is
bounded by N for every generation outcome; an unparseable output falls back
to the collaborator's top-N directly; a parsed recommendation that keeps
fewer than three of the top-ten raw results is discarded in favor of the raw
top-ten truncated to N — which, for N within the collaborator's cap of ten,
is exactly the collaborator's top-N. -/
theorem C8_discovery_fallbacks (api : Except String (List RawApiJob)) (n : Nat) :
    (∀ gen, (discoverJobs api gen n).length ≤ n) ∧
    (discoverJobs api .unparseable n = searchJobsForCandidate api n) ∧
    (∀ rec ids, allIds rec = some ids → rec ≠ [] →
      ((searchJobsForCandidate api 10).filter
          (fun job => ids.contains job.job_id)).length < 3 →
      discoverJobs api (.parsed rec) n = (searchJobsForCandidate api 10).take n) ∧
    (n ≤ 10 → (searchJobsForCandidate api 10).take n = searchJobsForCandidate api n) := by
  refine ⟨?_, rfl, ?_, searchJobs_take api n⟩
  · intro gen
    cases gen with
    | unparseable => exact searchJobs_length_le api n
    | parsed rec =>
      simp only [discoverJobs]
      split
      · exact searchJobs_length_le api n
      · cases hids : allIds rec with
        | none => exact searchJobs_length_le api n
        | some ids => exact List.length_take_le n _
  · intro rec ids hids hne hfew
    simp only [discoverJobs, if_neg hne, hids]
    rw [if_pos hfew, List.take_take, Nat.min_self]

/-- A sample raw search record. -/
def sampleRawJob : RawApiJob :=
  ⟨some "1", some "Backend Engineer", some "Acme", some "python and django",
   none, some "US", none, some "url", none⟩

/-- C8 witness: the cap equivalence of the theorem at a concrete search
result and count. -/
theorem C8_witness :
    (searchJobsForCandidate (.ok [sampleRawJob]) 10).take 5 =
      searchJobsForCandidate (.ok [sampleRawJob]) 5 :=
  (C8_discovery_fallbacks (.ok [sampleRawJob]) 5).2.2.2 (by decide)

/-! ## C4: one extraction routine per stage? -/

/-- The extraction step of `parse_resume` (`resume_analyst.py` lines
236-242): the greedy brace-span regex search, with no fence stripping and no
repair. -/
def parseResumeExtract (s : List Char) : Option (List Char) := regexBraceSpan s

/-- The extraction step of `rank_job_matches` (`ranking_agent.py` lines
242-249): the greedy brace-span regex search. -/
def rankExtract (s : List Char) : Option (List Char) := regexBraceSpan s

/-- The extraction step of `discover_jobs` (`job_discovery.py` lines
206-212): the greedy brace-span regex search. -/
def discoveryExtract (s : List Char) : Option (List Char) := regexBraceSpan s

/-- A raw output on which the two extraction routines disagree: a well-formed
object followed by prose containing a stray closing brace. -/
def c4input : List Char := ("\x7b\"a\": 1\x7d and also \x7d").data

/-- C4 counterexample: on `c4input` the fit-scoring stage's extraction
(depth scan) selects the well-formed object, while the routine used by
profile extraction, discovery and ranking (greedy first-to-last-brace regex)
selects a longer, different substring — so the stages do not parse with one
identical routine. -/
theorem C4_counterexample :
    extractJsonSingle c4input = .ok ("\x7b\"a\": 1\x7d").data ∧
    parseResumeExtract c4input = some c4input ∧
    ("\x7b\"a\": 1\x7d").data ≠ c4input := by
  exact ⟨rfl, rfl, by decide⟩

/-- C4 amended: there are exactly two extraction routines, not one.  The
single and batch fit-scoring stages share the identical fence-strip /
depth-scan / comma-repair routine; profile extraction, ranking and discovery
share the identical greedy brace-span regex routine; and the two routines
observably differ on trailing-prose output. -/
theorem C4_two_extraction_routines :
    extractJsonSingle = extractJsonBatch ∧
    parseResumeExtract = rankExtract ∧
    rankExtract = discoveryExtract ∧
    extractJsonSingle c4input = .ok ("\x7b\"a\": 1\x7d").data ∧
    rankExtract c4input = some c4input ∧
    ("\x7b\"a\": 1\x7d").data ≠ c4input := by
  exact ⟨rfl, rfl, rfl, rfl, rfl, by decide⟩

/-! ## C5: correctness of the depth scan

The grammar below characterizes the character sequences that make up the
interior of a serialized well-formed JSON object: quoted strings in which a
double quote or backslash occurs only inside a two-character escape sequence
(brace characters need no escaping inside strings and are allowed verbatim),
complete nested objects, and arbitrary other characters (numbers, literals,
punctuation, array brackets, whitespace), closed under concatenation. -/

/-- Body of a well-formed quoted string: every quote or backslash occurs only
as the second character of an escape sequence. -/
inductive StrBody : List Char → Prop where
  | nil : StrBody []
  | cons (c : Char) {rest : List Char} :
      c ≠ '\"' → c ≠ '\\' → StrBody rest → StrBody (c :: rest)
  | esc (c : Char) {rest : List Char} :
      StrBody rest → StrBody ('\\' :: c :: rest)

/-- Interior segments the depth scan passes through, returning to its
starting state. -/
inductive Neutral : List Char → Prop where
  | nil : Neutral []
  | append {a b : List Char} : Neutral a → Neutral b → Neutral (a ++ b)
  | other (c : Char) :
      c ≠ '\"' → c ≠ '\\' → c ≠ lbrace → c ≠ rbrace → Neutral [c]
  | str {body : List Char} : StrBody body → Neutral ('\"' :: (body ++ ['\"']))
  | obj {inner : List Char} : Neutral inner →
      Neutral (lbrace :: (inner ++ [rbrace]))

/-- The scan traverses a well-formed string body while in quoted-string
state without terminating, leaving depth and state unchanged. -/
theorem scanToClose_strBody {body : List Char} (hb : StrBody body) :
    ∀ (cs : List Char) (d : Int),
      scanToClose (body ++ cs) d true false =
        (scanToClose cs d true false).map (body ++ ·) := by
  induction hb with
  | nil =>
    intro cs d
    cases h : scanToClose cs d true false <;> simp [h]
  | @cons c rest hq hbs _ ih =>
    intro cs d
    show scanToClose (c :: (rest ++ cs)) d true false = _
    have hhead : scanToClose (c :: (rest ++ cs)) d true false =
        (scanToClose (rest ++ cs) d true false).map (c :: ·) := by
      simp [scanToClose, hq, hbs]
    rw [hhead, ih cs d]
    cases h9 : scanToClose cs d true false <;> simp [h9]
  | @esc c rest _ ih =>
    intro cs d
    show scanToClose ('\\' :: c :: (rest ++ cs)) d true false = _
    have hhead : scanToClose ('\\' :: c :: (rest ++ cs)) d true false =
        (scanToClose (rest ++ cs) d true false).map (fun x => '\\' :: c :: x) := by
      have h1 : scanToClose ('\\' :: c :: (rest ++ cs)) d true false =
          (scanToClose (c :: (rest ++ cs)) d true true).map ('\\' :: ·) := by
        simp [scanToClose]
      have h2 : scanToClose (c :: (rest ++ cs)) d true true =
          (scanToClose (rest ++ cs) d true false).map (c :: ·) := by
        simp [scanToClose]
      rw [h1, h2]
      cases h9 : scanToClose (rest ++ cs) d true false <;> simp [h9]
    rw [hhead, ih cs d]
    cases h9 : scanToClose cs d true false <;> simp [h9]

/-- The scan traverses a neutral segment at positive depth outside a string
without terminating, leaving depth and state unchanged. -/
theorem scanToClose_neutral {l : List Char} (hn : Neutral l) :
    ∀ (cs : List Char) (d : Int), 1 ≤ d →
      scanToClose (l ++ cs) d false false =
        (scanToClose cs d false false).map (l ++ ·) := by
  induction hn with
  | nil =>
    intro cs d _
    cases h : scanToClose cs d false false <;> simp [h]
  | @append a b _ _ iha ihb =>
    intro cs d hd
    rw [List.append_assoc, iha _ d hd, ihb _ d hd]
    cases h9 : scanToClose cs d false false <;> simp [h9]
  | other c h1 h2 h3 h4 =>
    intro cs d _
    show scanToClose (c :: cs) d false false = _
    have hhead : scanToClose (c :: cs) d false false =
        (scanToClose cs d false false).map (c :: ·) := by
      simp [scanToClose, h1, h2, h3, h4]
    rw [hhead]
    cases h9 : scanToClose cs d false false <;> simp [h9]
  | @str body hb =>
    intro cs d _
    show scanToClose ('\"' :: ((body ++ ['\"']) ++ cs)) d false false = _
    rw [List.append_assoc, List.singleton_append]
    have hopen : scanToClose ('\"' :: (body ++ '\"' :: cs)) d false false =
        (scanToClose (body ++ '\"' :: cs) d true false).map ('\"' :: ·) := by
      simp [scanToClose]
    have hclose : scanToClose ('\"' :: cs) d true false =
        (scanToClose cs d false false).map ('\"' :: ·) := by
      simp [scanToClose]
    rw [hopen, scanToClose_strBody hb ('\"' :: cs) d, hclose]
    cases h9 : scanToClose cs d false false <;> simp [h9]
  | @obj inner _ ih =>
    intro cs d hd
    show scanToClose (lbrace :: ((inner ++ [rbrace]) ++ cs)) d false false = _
    rw [List.append_assoc, List.singleton_append]
    have hone : ¬(d + 1 = 1) := by omega
    have hopen : scanToClose (lbrace :: (inner ++ rbrace :: cs)) d false false =
        (scanToClose (inner ++ rbrace :: cs) (d + 1) false false).map
          (lbrace :: ·) := by
      simp [scanToClose, lbrace]
    have hclose : scanToClose (rbrace :: cs) (d + 1) false false =
        (scanToClose cs (d + 1 - 1) false false).map (rbrace :: ·) := by
      simp [scanToClose, lbrace, rbrace, hone]
    have hsub : d + 1 - 1 = d := by omega
    rw [hsub] at hclose
    rw [hopen, ih (rbrace :: cs) (d + 1) (by omega), hclose]
    cases h9 : scanToClose cs d false false <;> simp [h9]

/-- Dropping to the first brace skips a braceless prefix. -/
theorem dropToFirstBrace_append :
    ∀ (pre : List Char), lbrace ∉ pre → ∀ (rest : List Char),
      dropToFirstBrace (pre ++ lbrace :: rest) = some (lbrace :: rest) := by
  intro pre
  induction pre with
  | nil => intro _ rest; simp [dropToFirstBrace]
  | cons c cs ih =>
    intro h rest
    have hc : ¬(c = lbrace) := fun hh => h (hh ▸ List.mem_cons_self c cs)
    simp only [List.cons_append, dropToFirstBrace, if_neg hc]
    exact ih (fun hm => h (List.mem_cons_of_mem c hm)) rest

/-- C5: for every raw text consisting of a braceless prefix, a well-formed
JSON object (whose quoted string values may contain brace characters), and an
arbitrary suffix, the first-brace location followed by the quote- and
escape-aware depth scan selects exactly the object: the substring from the
first opening brace to its true matching closing brace. -/
theorem C5_depth_scan (pre inner post : List Char) (hpre : lbrace ∉ pre)
    (hinner : Neutral inner) :
    (dropToFirstBrace (pre ++ lbrace :: (inner ++ rbrace :: post))).bind
        (fun rest => scanToClose rest 0 false false) =
      some (lbrace :: (inner ++ [rbrace])) := by
  rw [dropToFirstBrace_append pre hpre]
  have h1 : (some (lbrace :: (inner ++ rbrace :: post))).bind
      (fun rest => scanToClose rest 0 false false) =
      scanToClose (lbrace :: (inner ++ rbrace :: post)) 0 false false := rfl
  rw [h1]
  have h2 : scanToClose (lbrace :: (inner ++ rbrace :: post)) 0 false false =
      (scanToClose (inner ++ rbrace :: post) (0 + 1) false false).map
        (lbrace :: ·) := rfl
  rw [h2, scanToClose_neutral hinner (rbrace :: post) (0 + 1) (by norm_num)]
  have h3 : scanToClose (rbrace :: post) (0 + 1) false false = some [rbrace] := rfl
  rw [h3]
  rfl

/-- Every list of plain characters is a well-formed string body. -/
theorem strBody_of_plain :
    ∀ l : List Char, (∀ c ∈ l, c ≠ '\"' ∧ c ≠ '\\') → StrBody l := by
  intro l
  induction l with
  | nil => intro _; exact .nil
  | cons c cs ih =>
    intro h
    have hc := h c (List.mem_cons_self c cs)
    exact .cons c hc.1 hc.2 (ih fun x hx => h x (List.mem_cons_of_mem c hx))

/-- Witness input pieces: prose prefix, an object interior containing braces
inside a quoted string value, and a prose suffix. -/
def c5wPre : List Char := ['n', 'o', 't', 'e', ':', ' ']

/-- The witness object interior: a key and a string value consisting of an
opening and a closing brace. -/
def c5wInner : List Char :=
  ['\"', 'a', '\"', ':', ' ', '\"', '\x7b', '\x7d', '\"']

/-- The witness suffix. -/
def c5wPost : List Char := [' ', 't', 'a', 'i', 'l']

/-- The witness raw text. -/
def c5wInput : List Char := c5wPre ++ lbrace :: (c5wInner ++ rbrace :: c5wPost)

/-- The witness interior is neutral: two quoted strings (the second with
braces in its body) joined by plain characters. -/
theorem c5wInner_neutral : Neutral c5wInner := by
  have h1 : Neutral ('\"' :: (['a'] ++ ['\"'])) :=
    .str (strBody_of_plain ['a'] (by decide))
  have h2 : Neutral ('\"' :: (['\x7b', '\x7d'] ++ ['\"'])) :=
    .str (strBody_of_plain ['\x7b', '\x7d'] (by decide))
  have h3 : Neutral [':'] := .other ':' (by decide) (by decide) (by decide) (by decide)
  have h4 : Neutral [' '] := .other ' ' (by decide) (by decide) (by decide) (by decide)
  exact (Neutral.append h1 (.append h3 (.append h4 h2)) :
    Neutral (('\"' :: (['a'] ++ ['\"'])) ++
      ([':'] ++ ([' '] ++ ('\"' :: (['\x7b', '\x7d'] ++ ['\"']))))))

/-- C5 witness: the depth-scan theorem at a concrete raw text whose string
value contains braces. -/
theorem C5_witness :
    (dropToFirstBrace c5wInput).bind
        (fun rest => scanToClose rest 0 false false) =
      some (lbrace :: (c5wInner ++ [rbrace])) :=
  C5_depth_scan c5wPre c5wInner c5wPost (by decide) c5wInner_neutral

end JobSearch
